import Mathlib

set_option maxHeartbeats 1000000

/-! Shallow embedding of the pondi/pulse-converter worker.  The embedded
code lives in src/worker/pool.go (StartWorker, processJob,
handleJobFailure, recoverStaleJobs), src/services/s3.go (Cleanup) and the
models.ConversionJob struct.  Redis lists are modelled as Lean lists whose
index 0 is the list head (the LPUSH side); BRPOPLPUSH pops the source
tail and pushes the popped entry onto the destination head.  Go int is
modelled as Int with explicit two's-complement wrapping where the source
can overflow; time.Time is modelled as integer seconds and time.Duration
as integer nanoseconds. -/

/-- models.ConversionJob: the job record carried through the queue
(src/config/config.go companion file, struct ConversionJob). -/
structure ConversionJob where
  conversionID : Int
  fileID : Int
  fileGUID : String
  userID : Int
  inputS3Path : String
  outputS3Path : String
  inputExtension : String
  retryCount : Int
  maxRetries : Int
  createdAt : Int
  timeout : Int
deriving DecidableEq, Repr

/-- Field set of a syntactically valid JSON object aimed at ConversionJob:
each field may be present or absent.  encoding/json leaves absent fields
at their Go zero value, so decoding an object never fails for a missing
field. -/
structure JobFields where
  conversionID : Option Int
  fileID : Option Int
  fileGUID : Option String
  userID : Option Int
  inputS3Path : Option String
  outputS3Path : Option String
  inputExtension : Option String
  retryCount : Option Int
  maxRetries : Option Int
  createdAt : Option Int
  timeout : Option Int
deriving DecidableEq, Repr

/-- Queue entry: an opaque serialized blob.  It is either not parseable
into a ConversionJob (json.Unmarshal returns an error: not a JSON object,
or a type-mismatched field) or a valid JSON object with an optional set
of the job fields. -/
inductive Entry
  | invalid : String → Entry
  | record : JobFields → Entry
deriving DecidableEq, Repr

/-- json.Unmarshal into models.ConversionJob: fails only on entries that
are not valid JSON objects of the right shape; absent fields decode to
the Go zero value of their type. -/
def decodeEntry : Entry → Option ConversionJob
  | Entry.invalid _ => none
  | Entry.record f => some
      { conversionID := f.conversionID.getD 0
        fileID := f.fileID.getD 0
        fileGUID := f.fileGUID.getD ""
        userID := f.userID.getD 0
        inputS3Path := f.inputS3Path.getD ""
        outputS3Path := f.outputS3Path.getD ""
        inputExtension := f.inputExtension.getD ""
        retryCount := f.retryCount.getD 0
        maxRetries := f.maxRetries.getD 0
        createdAt := f.createdAt.getD 0
        timeout := f.timeout.getD 0 }

/-- json.Marshal of a ConversionJob: every field is emitted (the struct
tags carry no omitempty), so the resulting object has every field
present. -/
def encodeJob (j : ConversionJob) : Entry :=
  Entry.record
    { conversionID := some j.conversionID
      fileID := some j.fileID
      fileGUID := some j.fileGUID
      userID := some j.userID
      inputS3Path := some j.inputS3Path
      outputS3Path := some j.outputS3Path
      inputExtension := some j.inputExtension
      retryCount := some j.retryCount
      maxRetries := some j.maxRetries
      createdAt := some j.createdAt
      timeout := some j.timeout }

/-- LPUSH: push an entry onto the head of a list. -/
def lpush (l : List Entry) (e : Entry) : List Entry := e :: l

/-- LREM with count 1: remove the first occurrence (scanning from the
head) of the given value; absence is not an error. -/
def lremOne : List Entry → Entry → List Entry
  | [], _ => []
  | x :: xs, e => if x = e then xs else x :: lremOne xs e

/-- BRPOPLPUSH: atomically pop the tail of the source and push it onto
the head of the destination, or report no entry when the source is empty.
Returns the moved entry, the new source and the new destination. -/
def rpoplpush (src dst : List Entry) : Option (Entry × List Entry × List Entry) :=
  match src.getLast? with
  | none => none
  | some e => some (e, src.dropLast, e :: dst)

/-- The three Redis lists of the worker (pending, processing, failed). -/
structure QueueState where
  pending : List Entry
  processing : List Entry
  failed : List Entry
deriving DecidableEq, Repr

/-- Database (status store) calls issued by the worker, in issue order. -/
inductive DbAction
  | incrementRetryCount : Int → DbAction
  | updateStatus : Int → String → String → DbAction
  | updateError : Int → String → DbAction
deriving DecidableEq, Repr

/-- A write to the Redis status hash (HSet on conversion:status:id). -/
structure StatusWrite where
  conversionID : Int
  status : String
  error : String
deriving DecidableEq, Repr

/-- Outcome of one failure handling step: the immediate queue state, the
delayed pending pushes scheduled by time.AfterFunc as (delay
nanoseconds, entry) pairs, the status-store calls and the status-hash
writes. -/
structure FailureResult where
  state : QueueState
  scheduled : List (Int × Entry)
  dbActions : List DbAction
  statusWrites : List StatusWrite
deriving DecidableEq, Repr

/-- Nanoseconds per second: the value of time.Second as an int64
Duration. -/
def nsPerSecond : Int := 1000000000

/-- Two's-complement wrap of an unbounded integer into the int64
range, as Go's defined signed-overflow semantics produce. -/
def wrapInt64 (n : Int) : Int := (n + 2 ^ 63) % 2 ^ 64 - 2 ^ 63

/-- The delay computed at pool.go line 154, in nanoseconds:
time.Duration(math.Pow(2, float64(k))) * time.Second.  math.Pow(2, k)
is exactly 2 to the k in float64; converting it to the int64 Duration
truncates toward zero, giving 0 for negative k, and is exact while the
value fits int64, which holds for k up to 62 (for k of 63 or more the
float-to-int64 conversion itself is implementation-defined in Go, and
the embedding is only claimed faithful for k at most 62).  The
multiplication by time.Second is int64 arithmetic and wraps two's
complement once 2 to the k times 10 to the 9 reaches 2 to the 63, that
is for every k of 34 or more. -/
def rawDelayNs (k : Int) : Int :=
  let pw : Int := if k < 0 then 0 else 2 ^ k.toNat
  wrapInt64 (pw * nsPerSecond)

/-- pool.go lines 154 to 157: the computed delay, replaced by 30
seconds only when it exceeds 30 seconds (a wrapped negative delay
passes the check unchanged and AfterFunc fires immediately). -/
def backoffDelayNs (k : Int) : Int :=
  if rawDelayNs k > 30 * nsPerSecond then 30 * nsPerSecond else rawDelayNs k

/-- RetryCount increment performed in the retry branch (pool.go line 150
and line 224): only the retryCount field changes. -/
def bumpRetry (job : ConversionJob) : ConversionJob :=
  { job with retryCount := job.retryCount + 1 }

/-- handleJobFailure (pool.go lines 139 to 183): remove the original
serialized entry from processing, issue IncrementRetryCount, then either
schedule a delayed LPUSH of the re-serialized incremented job onto
pending (retry branch) or push the original entry onto failed and record
the failed status with the error text (exhaustion branch). -/
def handleJobFailure (job : ConversionJob) (jobJSON : Entry) (errorMsg : String)
    (st : QueueState) : FailureResult :=
  let st1 : QueueState := { st with processing := lremOne st.processing jobJSON }
  if job.retryCount < job.maxRetries then
    let job2 := bumpRetry job
    { state := st1
      scheduled := [(backoffDelayNs job2.retryCount, encodeJob job2)]
      dbActions := [DbAction.incrementRetryCount job.conversionID]
      statusWrites := [] }
  else
    { state := { st1 with failed := lpush st1.failed jobJSON }
      scheduled := []
      dbActions := [DbAction.incrementRetryCount job.conversionID,
                    DbAction.updateStatus job.conversionID "failed" "",
                    DbAction.updateError job.conversionID errorMsg]
      statusWrites := [{ conversionID := job.conversionID, status := "failed",
                         error := errorMsg }] }

/-- Run the delayed pushes of a failure result: each scheduled entry is
LPUSHed onto the pending head once its delay elapses. -/
def applyScheduled (r : FailureResult) : QueueState :=
  r.scheduled.foldl (fun s de => { s with pending := lpush s.pending de.2 }) r.state

/-- Success or failure of the three I/O steps of one attempt (S3
download, Gotenberg conversion, S3 upload). -/
structure IoOutcome where
  download : Bool
  convert : Bool
  upload : Bool
deriving DecidableEq, Repr

/-- Success or failure of each status-store write during one attempt.
The engine only ever inspects these to decide what to log. -/
structure DbOutcome where
  setProcessing : Bool
  incrementRetry : Bool
  setCompleted : Bool
  setFailed : Bool
  setError : Bool
deriving DecidableEq, Repr

/-- Outcome of processJob: queue state, scheduled delayed pushes,
attempted status-store calls, status-hash writes and log lines. -/
structure ProcessResult where
  state : QueueState
  scheduled : List (Int × Entry)
  dbActions : List DbAction
  statusWrites : List StatusWrite
  logs : List String
deriving DecidableEq, Repr

/-- processJob (pool.go lines 79 to 137): write status processing (log
on failure, continue), then download, convert, upload in order, routing
the first failing step through handleJobFailure; on success write status
completed (log on failure, continue), write the completed status hash
and remove the entry from processing. -/
def processJob (job : ConversionJob) (jobJSON : Entry) (io2 : IoOutcome)
    (db : DbOutcome) (st : QueueState) : ProcessResult :=
  let logs0 : List String :=
    if db.setProcessing then [] else ["Failed to update DB status"]
  let dbHead : List DbAction :=
    [DbAction.updateStatus job.conversionID "processing" ""]
  if io2.download = false then
    let r := handleJobFailure job jobJSON "S3 download failed" st
    { state := r.state, scheduled := r.scheduled,
      dbActions := dbHead ++ r.dbActions,
      statusWrites := r.statusWrites, logs := logs0 }
  else if io2.convert = false then
    let r := handleJobFailure job jobJSON "Office conversion failed" st
    { state := r.state, scheduled := r.scheduled,
      dbActions := dbHead ++ r.dbActions,
      statusWrites := r.statusWrites, logs := logs0 }
  else if io2.upload = false then
    let r := handleJobFailure job jobJSON "S3 upload failed" st
    { state := r.state, scheduled := r.scheduled,
      dbActions := dbHead ++ r.dbActions,
      statusWrites := r.statusWrites, logs := logs0 }
  else
    { state := { st with processing := lremOne st.processing jobJSON },
      scheduled := [],
      dbActions := dbHead ++
        [DbAction.updateStatus job.conversionID "completed" job.outputS3Path],
      statusWrites := [{ conversionID := job.conversionID, status := "completed",
                         error := "" }],
      logs := logs0 ++
        (if db.setCompleted then [] else ["Failed to update DB to completed"]) }

/-- Staleness threshold of the recovery sweep (pool.go line 218): five
minutes, in seconds. -/
def staleThresholdSeconds : Int := 300

/-- Handling of one snapshot entry by recoverStaleJobs (pool.go lines
211 to 234): skip entries that do not decode; for stale decodable jobs
remove the entry from processing and either immediately LPUSH the
re-serialized incremented job onto pending and issue
IncrementRetryCount, or LPUSH the original entry onto failed and record
the failed status with the fixed timeout error text.  The Nat component
is the contribution to the recovered counter. -/
def recoverEntry (now : Int) (jobJSON : Entry) (st : QueueState) :
    FailureResult × Nat :=
  match decodeEntry jobJSON with
  | none => ({ state := st, scheduled := [], dbActions := [], statusWrites := [] }, 0)
  | some job =>
    if now - job.createdAt > staleThresholdSeconds then
      let st1 : QueueState := { st with processing := lremOne st.processing jobJSON }
      if job.retryCount < job.maxRetries then
        let job2 := bumpRetry job
        ({ state := { st1 with pending := lpush st1.pending (encodeJob job2) }
           scheduled := []
           dbActions := [DbAction.incrementRetryCount job.conversionID]
           statusWrites := [] }, 1)
      else
        ({ state := { st1 with failed := lpush st1.failed jobJSON }
           scheduled := []
           dbActions := [DbAction.updateStatus job.conversionID "failed" "",
                         DbAction.updateError job.conversionID
                           "Job timeout - exceeded 5 minutes"]
           statusWrites := [] }, 0)
    else ({ state := st, scheduled := [], dbActions := [], statusWrites := [] }, 0)

/-- One fold step of the recovery sweep: apply recoverEntry to the
accumulated state and append its effects. -/
def sweepStep (now : Int) (acc : QueueState × List DbAction × Nat) (e : Entry) :
    QueueState × List DbAction × Nat :=
  let r := recoverEntry now e acc.1
  (r.1.state, acc.2.1 ++ r.1.dbActions, acc.2.2 + r.2)

/-- recoverStaleJobs (pool.go lines 202 to 240): snapshot the processing
list with LRANGE and handle each snapshot entry in order. -/
def recoverStaleJobs (now : Int) (st : QueueState) :
    QueueState × List DbAction × Nat :=
  st.processing.foldl (sweepStep now) (st, [], 0)

/-- Repeated recovery sweeps at the given sequence of times. -/
def sweepMany (times : List Int) (st : QueueState) : QueueState :=
  times.foldl (fun s t => (recoverStaleJobs t s).1) st

/-- The claim operation of the worker loop (pool.go lines 46 to 51): a
single atomic BRPOPLPUSH from pending to processing.  Atomicity of the
move is Redis's contract for this command; the embedding represents it
as one indivisible step on the queue state. -/
def claimOp (st : QueueState) : Option Entry × QueueState :=
  match rpoplpush st.pending st.processing with
  | none => (none, st)
  | some (e, p2, pr2) =>
    (some e, { st with pending := p2, processing := pr2 })

/-- Two workers each performing one claim, in either schedule order; the
pair is (worker A result, worker B result). -/
def twoWorkerClaims (st : QueueState) (aFirst : Bool) :
    (Option Entry × Option Entry) × QueueState :=
  let r1 := claimOp st
  let r2 := claimOp r1.2
  (if aFirst then (r1.1, r2.1) else (r2.1, r1.1), r2.2)

/-- Result of the claim-and-decode prefix of one worker loop iteration. -/
inductive WorkerStepResult
  | noJob : WorkerStepResult
  | dropped : Entry → WorkerStepResult
  | toProcess : ConversionJob → Entry → WorkerStepResult
deriving DecidableEq, Repr

/-- StartWorker claim-and-decode (pool.go lines 45 to 74): claim via
BRPOPLPUSH; on decode failure remove the claimed entry from processing
by value (LREM count 1) and continue, issuing no status-store call; on
decode success hand the job to processJob. -/
def workerClaimDecode (st : QueueState) :
    WorkerStepResult × QueueState × List DbAction :=
  match claimOp st with
  | (none, st1) => (WorkerStepResult.noJob, st1, [])
  | (some e, st1) =>
    match decodeEntry e with
    | none =>
      (WorkerStepResult.dropped e,
       { st1 with processing := lremOne st1.processing e }, [])
    | some job => (WorkerStepResult.toProcess job e, st1, [])

/-- os.Remove on a filesystem modelled as the finite set of existing
paths: deletes the path when present, otherwise reports a not-exist
error and leaves the filesystem unchanged. -/
def osRemove (fs : Finset String) (path : String) :
    Option String × Finset String :=
  if path ∈ fs then (none, fs.erase path)
  else (some "remove: no such file or directory", fs)

/-- S3Service.Cleanup (s3.go lines 103 to 108): succeed without effect
on the empty path, otherwise return the result of os.Remove. -/
def Cleanup (fs : Finset String) (path : String) :
    Option String × Finset String :=
  if path = "" then (none, fs) else osRemove fs path

/-- Occurrence count of an entry in a list. -/
def countE (e : Entry) : List Entry → Nat
  | [] => 0
  | x :: xs => (if x = e then 1 else 0) + countE e xs

/-- Concrete job used to instantiate the claim theorems: one earlier
retry, two still available. -/
def cJob : ConversionJob :=
  { conversionID := 42, fileID := 1, fileGUID := "g", userID := 7,
    inputS3Path := "in", outputS3Path := "out", inputExtension := "docx",
    retryCount := 1, maxRetries := 3, createdAt := 0, timeout := 120 }

/-- Serialized form of the concrete job. -/
def cEntry : Entry := encodeJob cJob

/-- Concrete queue state holding the concrete job in processing. -/
def cState : QueueState :=
  { pending := [], processing := [cEntry], failed := [] }

/-- Concrete job with its retries exhausted. -/
def xJob : ConversionJob := { cJob with retryCount := 3 }

/-- Serialized form of the exhausted concrete job. -/
def xEntry : Entry := encodeJob xJob

/-- Concrete queue state holding the exhausted job in processing. -/
def xState : QueueState :=
  { pending := [], processing := [xEntry], failed := [] }

/-- Claim C1: when a job fails an attempt with retryCount < maxRetries,
handleJobFailure removes the original serialized entry from the
processing list, leaves pending and failed untouched immediately,
schedules exactly one delayed push carrying exactly the re-serialized
job whose retryCount is incremented by exactly one with every other
field unchanged, that push lands on the pending list head once its
computed delay elapses, and the new retryCount never exceeds
maxRetries. -/
theorem handleJobFailure_retry_branch (job : ConversionJob) (jobJSON : Entry)
    (msg : String) (st : QueueState) (h : job.retryCount < job.maxRetries) :
    (handleJobFailure job jobJSON msg st).state.processing
        = lremOne st.processing jobJSON ∧
    (handleJobFailure job jobJSON msg st).state.pending = st.pending ∧
    (handleJobFailure job jobJSON msg st).state.failed = st.failed ∧
    (∃ d, (handleJobFailure job jobJSON msg st).scheduled
        = [(d, encodeJob (bumpRetry job))]) ∧
    (applyScheduled (handleJobFailure job jobJSON msg st)).pending
        = lpush st.pending (encodeJob (bumpRetry job)) ∧
    (bumpRetry job).retryCount = job.retryCount + 1 ∧
    (bumpRetry job).conversionID = job.conversionID ∧
    (bumpRetry job).fileID = job.fileID ∧
    (bumpRetry job).fileGUID = job.fileGUID ∧
    (bumpRetry job).userID = job.userID ∧
    (bumpRetry job).inputS3Path = job.inputS3Path ∧
    (bumpRetry job).outputS3Path = job.outputS3Path ∧
    (bumpRetry job).inputExtension = job.inputExtension ∧
    (bumpRetry job).maxRetries = job.maxRetries ∧
    (bumpRetry job).createdAt = job.createdAt ∧
    (bumpRetry job).timeout = job.timeout ∧
    (bumpRetry job).retryCount ≤ job.maxRetries := by
  have hb : (bumpRetry job).retryCount ≤ job.maxRetries := by
    simp only [bumpRetry]
    omega
  refine ⟨?_, ?_, ?_, ⟨backoffDelayNs (bumpRetry job).retryCount, ?_⟩, ?_,
    rfl, rfl, rfl, rfl, rfl, rfl, rfl, rfl, rfl, rfl, rfl, hb⟩ <;>
    simp [handleJobFailure, applyScheduled, h, bumpRetry, lpush]

/-- Witness for handleJobFailure_retry_branch at the concrete job: the
scheduled push lands the incremented job on the pending head. -/
theorem handleJobFailure_retry_branch_witness :
    (applyScheduled (handleJobFailure cJob cEntry "m" cState)).pending
        = lpush cState.pending (encodeJob (bumpRetry cJob)) :=
  (handleJobFailure_retry_branch cJob cEntry "m" cState
    (by decide)).2.2.2.2.1

/-- wrapInt64 is the identity on nonnegative values representable in
int64. -/
theorem wrapInt64_eq_self (n : Int) (h0 : 0 ≤ n) (h1 : n < 2 ^ 63) :
    wrapInt64 n = n := by
  have e63 : (2:Int) ^ 63 = 9223372036854775808 := by norm_num
  have e64 : (2:Int) ^ 64 = 18446744073709551616 := by norm_num
  rw [e63] at h1
  unfold wrapInt64
  rw [e63, e64, Int.emod_eq_of_lt (by omega) (by omega)]
  omega

/-- Job whose next failure produces post-increment retry count 34; its
retry state comes straight from the job JSON (pool.go line 66), so
nothing in the engine keeps this input from occurring. -/
def bigJob : ConversionJob :=
  { cJob with retryCount := 33, maxRetries := 34 }

/-- Serialized form of the high-retry-count job. -/
def bigEntry : Entry := encodeJob bigJob

/-- Queue state holding the high-retry-count job in processing. -/
def bigState : QueueState :=
  { pending := [], processing := [bigEntry], failed := [] }

/-- Claim C2 counterexample: at post-increment retry count 34 the int64
nanosecond product of 2 to the 34 with 10 to the 9 exceeds 2 to the 63
and wraps two's complement to a negative value; the 30 second cap check
then fails, so the computed delay is negative (AfterFunc fires
immediately), not the claimed 30 seconds, and handleJobFailure
schedules the retry with that negative delay. -/
theorem backoff_wraps_at_retry_34 :
    backoffDelayNs (34 : Int) = -1266874889709551616 ∧
    backoffDelayNs (34 : Int) < 0 ∧
    backoffDelayNs (34 : Int) ≠ 30 * nsPerSecond ∧
    bigJob.retryCount < bigJob.maxRetries ∧
    (bumpRetry bigJob).retryCount = 34 ∧
    (handleJobFailure bigJob bigEntry "m" bigState).scheduled
        = [(-1266874889709551616, encodeJob (bumpRetry bigJob))] := by
  refine ⟨by decide, by decide, by decide, by decide, by decide, by decide⟩

/-- Claim C2 amended: for post-increment retry count k the computed
delay is exactly 2 to the k seconds (2, 4, 8, 16 seconds) for k from 1
to 4 and exactly 30 seconds for k from 5 to 33; from k equal to 34 the
int64 nanosecond product wraps two's complement and the min formula
fails, the delay at k equal to 34 being negative so the retry fires
immediately (for k of 63 or more the float-to-Duration conversion is
implementation-defined in Go and out of the embedding's scope). -/
theorem backoffDelay_piecewise (k : Nat) (hk : 1 ≤ k) :
    (k ≤ 4 → backoffDelayNs (k : Int) = (2:Int) ^ k * nsPerSecond) ∧
    (5 ≤ k → k ≤ 33 → backoffDelayNs (k : Int) = 30 * nsPerSecond) ∧
    backoffDelayNs (34 : Int) < 0 := by
  have h0 : ¬ ((k : Int) < 0) := not_lt.mpr (Int.natCast_nonneg k)
  have hraw : rawDelayNs (k : Int) = wrapInt64 ((2:Int) ^ k * nsPerSecond) := by
    simp [rawDelayNs, h0, Int.toNat_natCast]
  refine ⟨?_, ?_, by decide⟩
  · intro h4
    interval_cases k <;> decide
  · intro h5 h33
    have hub : (2:Int) ^ k ≤ 2 ^ 33 := pow_le_pow_right₀ (by norm_num) h33
    have hnn : (0:Int) ≤ 2 ^ k * nsPerSecond :=
      mul_nonneg (by positivity) (by norm_num [nsPerSecond])
    have hidentity : wrapInt64 ((2:Int) ^ k * nsPerSecond)
        = (2:Int) ^ k * nsPerSecond := by
      refine wrapInt64_eq_self _ hnn ?_
      calc (2:Int) ^ k * nsPerSecond ≤ 2 ^ 33 * nsPerSecond :=
            mul_le_mul_of_nonneg_right hub (by norm_num [nsPerSecond])
        _ < 2 ^ 63 := by norm_num [nsPerSecond]
    have h32 : (32:Int) ≤ 2 ^ k := by
      calc (32:Int) = 2 ^ 5 := by norm_num
        _ ≤ 2 ^ k := pow_le_pow_right₀ (by norm_num) h5
    have h30 : (30:Int) < 2 ^ k := lt_of_lt_of_le (by norm_num) h32
    have hgt : 30 * nsPerSecond < (2:Int) ^ k * nsPerSecond :=
      mul_lt_mul_of_pos_right h30 (by norm_num [nsPerSecond])
    simp only [backoffDelayNs]
    rw [hraw, hidentity, if_pos hgt]

/-- Witness for backoffDelay_piecewise at retry counts 5 and 2. -/
theorem backoffDelay_piecewise_witness :
    backoffDelayNs ((5:Nat) : Int) = 30 * nsPerSecond ∧
    backoffDelayNs ((2:Nat) : Int) = (2:Int) ^ 2 * nsPerSecond :=
  ⟨(backoffDelay_piecewise 5 (by decide)).2.1 (by decide) (by decide),
   (backoffDelay_piecewise 2 (by decide)).1 (by decide)⟩

/-- Claim C3: when a job fails an attempt with retryCount at or beyond
maxRetries, handleJobFailure pushes exactly the original un-mutated
serialized entry onto the failed list head, writes the failed status
with the error text to the status store and the status hash, schedules
nothing for pending, and leaves the pending list untouched. -/
theorem handleJobFailure_exhausted_branch (job : ConversionJob)
    (jobJSON : Entry) (msg : String) (st : QueueState)
    (h : job.maxRetries ≤ job.retryCount) :
    (handleJobFailure job jobJSON msg st).state.processing
        = lremOne st.processing jobJSON ∧
    (handleJobFailure job jobJSON msg st).state.failed
        = lpush st.failed jobJSON ∧
    (handleJobFailure job jobJSON msg st).state.pending = st.pending ∧
    (handleJobFailure job jobJSON msg st).scheduled = [] ∧
    applyScheduled (handleJobFailure job jobJSON msg st)
        = (handleJobFailure job jobJSON msg st).state ∧
    (handleJobFailure job jobJSON msg st).statusWrites
        = [{ conversionID := job.conversionID, status := "failed",
             error := msg }] ∧
    (handleJobFailure job jobJSON msg st).dbActions
        = [DbAction.incrementRetryCount job.conversionID,
           DbAction.updateStatus job.conversionID "failed" "",
           DbAction.updateError job.conversionID msg] := by
  have hn : ¬ (job.retryCount < job.maxRetries) := not_lt.mpr h
  refine ⟨?_, ?_, ?_, ?_, ?_, ?_, ?_⟩ <;>
    simp [handleJobFailure, applyScheduled, hn, lpush]

/-- Witness for handleJobFailure_exhausted_branch at the exhausted
concrete job. -/
theorem handleJobFailure_exhausted_witness :
    (handleJobFailure xJob xEntry "boom" xState).scheduled = [] ∧
    (handleJobFailure xJob xEntry "boom" xState).state.pending
        = xState.pending :=
  ⟨(handleJobFailure_exhausted_branch xJob xEntry "boom" xState
      (by decide)).2.2.2.1,
   (handleJobFailure_exhausted_branch xJob xEntry "boom" xState
      (by decide)).2.2.1⟩

/-- Claim C4 counterexample: the recovery sweep does not handle a stale
decodable job identically to an inline Fail Attempt.  At the concrete
stale job the inline failure leaves pending untouched and schedules a
delayed push with a 4 second backoff, while the sweep pushes the retried
entry onto pending immediately and schedules nothing, so the two
results differ. -/
theorem recoverEntry_ne_handleJobFailure :
    (recoverEntry 1000 cEntry cState).1
      ≠ handleJobFailure cJob cEntry "stale - exceeded staleness threshold"
          cState ∧
    (recoverEntry 1000 cEntry cState).1.scheduled = [] ∧
    (handleJobFailure cJob cEntry "stale - exceeded staleness threshold"
        cState).scheduled
      = [(4 * nsPerSecond, encodeJob (bumpRetry cJob))] ∧
    (recoverEntry 1000 cEntry cState).1.state.pending
      = [encodeJob (bumpRetry cJob)] ∧
    (handleJobFailure cJob cEntry "stale - exceeded staleness threshold"
        cState).state.pending = [] := by
  refine ⟨by decide, by decide, by decide, by decide, by decide⟩

/-- Claim C4 amended: for a decodable processing entry whose createdAt
is more than five minutes old, the recovery sweep removes the entry and
applies the same retry-or-fail branch condition as an inline failure,
producing on retry the same incremented re-serialized job that the
inline path would schedule, but it pushes that job onto pending
immediately with no backoff delay, issues the durable retry-count
increment only on the retry branch, and on exhaustion pushes the
original entry onto failed recording the error text
"Job timeout - exceeded 5 minutes" without any status-hash write. -/
theorem recoverEntry_stale_branching (now : Int) (e : Entry)
    (job : ConversionJob) (st : QueueState)
    (hd : decodeEntry e = some job)
    (hs : now - job.createdAt > staleThresholdSeconds) :
    (job.retryCount < job.maxRetries →
      recoverEntry now e st =
        ({ state := { pending := lpush st.pending (encodeJob (bumpRetry job)),
                      processing := lremOne st.processing e,
                      failed := st.failed },
           scheduled := [],
           dbActions := [DbAction.incrementRetryCount job.conversionID],
           statusWrites := [] }, 1) ∧
      ∀ msg, (handleJobFailure job e msg st).scheduled.map Prod.snd
          = [encodeJob (bumpRetry job)]) ∧
    (job.maxRetries ≤ job.retryCount →
      recoverEntry now e st =
        ({ state := { pending := st.pending,
                      processing := lremOne st.processing e,
                      failed := lpush st.failed e },
           scheduled := [],
           dbActions := [DbAction.updateStatus job.conversionID "failed" "",
                         DbAction.updateError job.conversionID
                           "Job timeout - exceeded 5 minutes"],
           statusWrites := [] }, 0)) := by
  constructor
  · intro hr
    constructor
    · simp [recoverEntry, hd, hs, hr, lpush]
    · intro msg
      simp [handleJobFailure, hr]
  · intro hx
    have hn : ¬ (job.retryCount < job.maxRetries) := not_lt.mpr hx
    simp [recoverEntry, hd, hs, hn, lpush]

/-- Witness for recoverEntry_stale_branching at the concrete stale job. -/
theorem recoverEntry_stale_branching_witness :
    recoverEntry 1000 cEntry cState =
      ({ state := { pending := lpush cState.pending (encodeJob (bumpRetry cJob)),
                    processing := lremOne cState.processing cEntry,
                    failed := cState.failed },
         scheduled := [],
         dbActions := [DbAction.incrementRetryCount cJob.conversionID],
         statusWrites := [] }, 1) :=
  ((recoverEntry_stale_branching 1000 cEntry cJob cState (by decide)
      (by decide)).1 (by decide)).1

/-- Claim C5: a claimed entry that cannot be parsed into a job is
removed (by value) from the processing list and dropped: relative to the
pre-claim state the processing and failed lists are unchanged, the
entry leaves pending, no status-store call is made, and the worker
neither schedules nor performs any re-enqueue of the entry. -/
theorem worker_drops_undecodable (ps : List Entry) (e : Entry)
    (pr fl : List Entry) (h : decodeEntry e = none) :
    workerClaimDecode { pending := ps ++ [e], processing := pr, failed := fl }
      = (WorkerStepResult.dropped e,
         { pending := ps, processing := pr, failed := fl }, []) := by
  have hlast : (ps ++ [e]).getLast? = some e := by
    simp [List.getLast?_concat]
  have hdrop : (ps ++ [e]).dropLast = ps := by
    simp [List.dropLast_concat]
  simp [workerClaimDecode, claimOp, rpoplpush, hlast, hdrop, h, lremOne]

/-- Witness for worker_drops_undecodable at a concrete malformed entry. -/
theorem worker_drops_undecodable_witness :
    workerClaimDecode
        { pending := [] ++ [Entry.invalid "bad"], processing := [],
          failed := [] }
      = (WorkerStepResult.dropped (Entry.invalid "bad"),
         { pending := [], processing := [], failed := [] }, []) :=
  worker_drops_undecodable [] (Entry.invalid "bad") [] [] rfl

/-- JSON object with every job field absent: as a Go value it is the
valid JSON text of an empty object. -/
def emptyFields : JobFields :=
  { conversionID := none, fileID := none, fileGUID := none, userID := none,
    inputS3Path := none, outputS3Path := none, inputExtension := none,
    retryCount := none, maxRetries := none, createdAt := none,
    timeout := none }

/-- The job all of whose fields hold the Go zero value of their type. -/
def zeroJob : ConversionJob :=
  { conversionID := 0, fileID := 0, fileGUID := "", userID := 0,
    inputS3Path := "", outputS3Path := "", inputExtension := "",
    retryCount := 0, maxRetries := 0, createdAt := 0, timeout := 0 }

/-- Claim C6 counterexample: a valid JSON entry missing every required
job field is not rejected by the decode step.  json.Unmarshal leaves
missing fields at their zero values and succeeds, so the worker hands
the zero-valued job to processJob instead of taking the decode-fail
path. -/
theorem missing_fields_entry_is_processed :
    decodeEntry (Entry.record emptyFields) ≠ none ∧
    decodeEntry (Entry.record emptyFields) = some zeroJob ∧
    (workerClaimDecode
        { pending := [Entry.record emptyFields], processing := [],
          failed := [] }).1
      = WorkerStepResult.toProcess zeroJob (Entry.record emptyFields) := by
  refine ⟨by decide, by decide, by decide⟩

/-- Claim C6 amended: the decode step rejects only entries that are not
parseable as a JSON object of the job shape; a valid JSON entry missing
any or all of the required fields decodes successfully, every absent
field receiving the Go zero value of its type, and the resulting job is
processed rather than dropped. -/
theorem decode_missing_fields_defaults (f : JobFields) :
    decodeEntry (Entry.record f)
      = some { conversionID := f.conversionID.getD 0,
               fileID := f.fileID.getD 0,
               fileGUID := f.fileGUID.getD "",
               userID := f.userID.getD 0,
               inputS3Path := f.inputS3Path.getD "",
               outputS3Path := f.outputS3Path.getD "",
               inputExtension := f.inputExtension.getD "",
               retryCount := f.retryCount.getD 0,
               maxRetries := f.maxRetries.getD 0,
               createdAt := f.createdAt.getD 0,
               timeout := f.timeout.getD 0 } ∧
    (∀ s, decodeEntry (Entry.invalid s) = none) ∧
    (workerClaimDecode
        { pending := [Entry.record f], processing := [], failed := [] }).1
      = WorkerStepResult.toProcess
          { conversionID := f.conversionID.getD 0,
            fileID := f.fileID.getD 0,
            fileGUID := f.fileGUID.getD "",
            userID := f.userID.getD 0,
            inputS3Path := f.inputS3Path.getD "",
            outputS3Path := f.outputS3Path.getD "",
            inputExtension := f.inputExtension.getD "",
            retryCount := f.retryCount.getD 0,
            maxRetries := f.maxRetries.getD 0,
            createdAt := f.createdAt.getD 0,
            timeout := f.timeout.getD 0 } (Entry.record f) := by
  refine ⟨rfl, fun s => rfl, ?_⟩
  simp [workerClaimDecode, claimOp, rpoplpush, decodeEntry]

/-- Claim C7: when two workers run the claim operation against a pending
list holding a single entry, in either schedule order of the two atomic
BRPOPLPUSH steps, exactly one worker obtains the entry and the other
observes no job, and the entry ends up in processing exactly once. -/
theorem claim_mutual_exclusion (e : Entry) (pr fl : List Entry)
    (aFirst : Bool) :
    (((twoWorkerClaims { pending := [e], processing := pr, failed := fl }
          aFirst).1.1 = some e ∧
      (twoWorkerClaims { pending := [e], processing := pr, failed := fl }
          aFirst).1.2 = none) ∨
     ((twoWorkerClaims { pending := [e], processing := pr, failed := fl }
          aFirst).1.1 = none ∧
      (twoWorkerClaims { pending := [e], processing := pr, failed := fl }
          aFirst).1.2 = some e)) ∧
    (twoWorkerClaims { pending := [e], processing := pr, failed := fl }
        aFirst).2.pending = [] ∧
    (twoWorkerClaims { pending := [e], processing := pr, failed := fl }
        aFirst).2.processing = e :: pr := by
  cases aFirst
  · exact ⟨Or.inr ⟨rfl, rfl⟩, rfl, rfl⟩
  · exact ⟨Or.inl ⟨rfl, rfl⟩, rfl, rfl⟩

/-- Claim C8: the success or failure of every status-store write is
invisible to job processing: for any attempt, the queue state, the
scheduled retry pushes, the attempted status-store calls and the
status-hash writes of processJob are identical under any two outcomes
of the store writes; only the log lines can differ. -/
theorem db_failures_never_alter_processing (job : ConversionJob)
    (jobJSON : Entry) (io2 : IoOutcome) (d1 d2 : DbOutcome)
    (st : QueueState) :
    (processJob job jobJSON io2 d1 st).state
        = (processJob job jobJSON io2 d2 st).state ∧
    (processJob job jobJSON io2 d1 st).scheduled
        = (processJob job jobJSON io2 d2 st).scheduled ∧
    (processJob job jobJSON io2 d1 st).dbActions
        = (processJob job jobJSON io2 d2 st).dbActions ∧
    (processJob job jobJSON io2 d1 st).statusWrites
        = (processJob job jobJSON io2 d2 st).statusWrites := by
  obtain ⟨dl, cv, up⟩ := io2
  cases dl <;> cases cv <;> cases up <;> exact ⟨rfl, rfl, rfl, rfl⟩

/-- Claim C9 counterexample: Cleanup is not a no-op on an absent file.
On the empty filesystem with a non-empty path it returns the not-exist
error from os.Remove, and after a successful Cleanup a second call on
the same path errors instead of succeeding. -/
theorem cleanup_absent_file_errors :
    (Cleanup (∅ : Finset String) "a").1
        = some "remove: no such file or directory" ∧
    (Cleanup ({"a"} : Finset String) "a").1 = none ∧
    (Cleanup (Cleanup ({"a"} : Finset String) "a").2 "a").1 ≠ none := by
  refine ⟨by decide, by decide, by decide⟩

/-- Claim C9 amended: Cleanup succeeds without effect on the empty path;
on a non-empty path it deletes the file when present and, when the file
is absent, leaves the filesystem unchanged but returns the not-exist
error of os.Remove.  The filesystem effect is therefore idempotent, but
the second of two consecutive calls on a then-absent file reports an
error rather than succeeding. -/
theorem cleanup_idempotent_effect (fs : Finset String) (p : String) :
    (Cleanup (Cleanup fs p).2 p).2 = (Cleanup fs p).2 ∧
    (p = "" → Cleanup fs p = (none, fs)) ∧
    (p ≠ "" → p ∉ fs → (Cleanup fs p).1 ≠ none ∧ (Cleanup fs p).2 = fs) ∧
    (p ≠ "" → p ∈ fs →
      (Cleanup fs p).1 = none ∧ (Cleanup fs p).2 = fs.erase p) := by
  by_cases hp : p = ""
  · subst hp
    exact ⟨by simp [Cleanup], fun _ => by simp [Cleanup],
      fun h _ => absurd rfl h, fun h _ => absurd rfl h⟩
  · by_cases hm : p ∈ fs
    · have h2 : p ∉ fs.erase p := Finset.not_mem_erase p fs
      refine ⟨?_, fun he => absurd he hp, fun _ hnm => absurd hm hnm,
        fun _ _ => ?_⟩
      · simp [Cleanup, osRemove, hp, hm, h2]
      · simp [Cleanup, osRemove, hp, hm]
    · refine ⟨?_, fun he => absurd he hp, fun _ _ => ?_,
        fun _ hm2 => absurd hm2 hm⟩
      · simp [Cleanup, osRemove, hp, hm]
      · simp [Cleanup, osRemove, hp, hm]

/-- Witness for cleanup_idempotent_effect: deleting a present file
succeeds and erases it. -/
theorem cleanup_idempotent_effect_witness :
    (Cleanup ({"a"} : Finset String) "a").1 = none ∧
    (Cleanup ({"a"} : Finset String) "a").2
        = ({"a"} : Finset String).erase "a" :=
  (cleanup_idempotent_effect {"a"} "a").2.2.2 (by decide) (by simp)

/-- Removing a value different from e from a list does not change the
occurrence count of e. -/
theorem countE_lremOne_ne (l : List Entry) (x e : Entry) (h : x ≠ e) :
    countE e (lremOne l x) = countE e l := by
  induction l with
  | nil => rfl
  | cons a t ih =>
    by_cases hax : a = x
    · subst hax
      simp [lremOne, countE, h]
    · simp [lremOne, hax, countE, ih]

/-- One recovery-sweep fold step preserves the occurrence counts of an
undecodable entry in all three lists. -/
theorem countE_sweepStep (e : Entry) (h : decodeEntry e = none) (now : Int)
    (acc : QueueState × List DbAction × Nat) (x : Entry) :
    countE e (sweepStep now acc x).1.processing
        = countE e acc.1.processing ∧
    countE e (sweepStep now acc x).1.pending = countE e acc.1.pending ∧
    countE e (sweepStep now acc x).1.failed = countE e acc.1.failed := by
  rcases hd : decodeEntry x with _ | job
  · simp [sweepStep, recoverEntry, hd]
  · have hxe : x ≠ e := by
      intro hxe
      rw [hxe, h] at hd
      exact Option.noConfusion hd
    have hde : decodeEntry (encodeJob (bumpRetry job))
        = some (bumpRetry job) := rfl
    have henc : encodeJob (bumpRetry job) ≠ e := by
      intro hh
      rw [hh, h] at hde
      exact Option.noConfusion hde
    by_cases hs : now - job.createdAt > staleThresholdSeconds
    · by_cases hr : job.retryCount < job.maxRetries
      · simp [sweepStep, recoverEntry, hd, hs, hr, lpush, countE, henc,
          countE_lremOne_ne _ _ _ hxe]
      · simp [sweepStep, recoverEntry, hd, hs, hr, lpush, countE, hxe,
          countE_lremOne_ne _ _ _ hxe]
    · simp [sweepStep, recoverEntry, hd, hs]

/-- Folding the recovery sweep over any snapshot preserves the
occurrence counts of an undecodable entry in all three lists. -/
theorem countE_foldl_sweep (e : Entry) (h : decodeEntry e = none)
    (now : Int) (l : List Entry) :
    ∀ acc : QueueState × List DbAction × Nat,
      countE e (l.foldl (sweepStep now) acc).1.processing
          = countE e acc.1.processing ∧
      countE e (l.foldl (sweepStep now) acc).1.pending
          = countE e acc.1.pending ∧
      countE e (l.foldl (sweepStep now) acc).1.failed
          = countE e acc.1.failed := by
  induction l with
  | nil => exact fun acc => ⟨rfl, rfl, rfl⟩
  | cons x t ih =>
    intro acc
    rw [List.foldl_cons]
    obtain ⟨h1, h2, h3⟩ := ih (sweepStep now acc x)
    obtain ⟨g1, g2, g3⟩ := countE_sweepStep e h now acc x
    exact ⟨h1.trans g1, h2.trans g2, h3.trans g3⟩

/-- Claim C10: the recovery sweep skips every processing entry that
cannot be parsed into a job: its handling of that entry leaves the
queue state untouched and performs no removal, no push, no status-store
call, no status-hash write and no recovery count, the entry is never
removed from processing and never pushed onto pending or failed by the
rest of the sweep, and it remains in the processing list with unchanged
multiplicity across any number of sweep runs at arbitrary times. -/
theorem sweep_skips_undecodable (e : Entry) (h : decodeEntry e = none) :
    (∀ now st, recoverEntry now e st
        = ({ state := st, scheduled := [], dbActions := [],
             statusWrites := [] }, 0)) ∧
    (∀ now st,
      countE e (recoverStaleJobs now st).1.processing
          = countE e st.processing ∧
      countE e (recoverStaleJobs now st).1.pending = countE e st.pending ∧
      countE e (recoverStaleJobs now st).1.failed = countE e st.failed) ∧
    (∀ times st,
      countE e (sweepMany times st).processing = countE e st.processing) := by
  refine ⟨fun now st => by simp [recoverEntry, h], ?_⟩
  have hone : ∀ now st,
      countE e (recoverStaleJobs now st).1.processing
          = countE e st.processing ∧
      countE e (recoverStaleJobs now st).1.pending = countE e st.pending ∧
      countE e (recoverStaleJobs now st).1.failed = countE e st.failed :=
    fun now st => countE_foldl_sweep e h now st.processing (st, [], 0)
  refine ⟨hone, ?_⟩
  intro times
  induction times with
  | nil => exact fun st => rfl
  | cons t ts ih =>
    intro st
    have hstep : sweepMany (t :: ts) st
        = sweepMany ts (recoverStaleJobs t st).1 := rfl
    rw [hstep]
    exact (ih (recoverStaleJobs t st).1).trans (hone t st).1

/-- Concrete processing list holding a stuck undecodable entry next to
the concrete stale job. -/
def wState : QueueState :=
  { pending := [], processing := [Entry.invalid "stuck", cEntry],
    failed := [] }

/-- Witness for sweep_skips_undecodable: handling the stuck entry is a
complete no-op, and the entry survives one sweep and two consecutive
sweeps unchanged. -/
theorem sweep_skips_undecodable_witness :
    recoverEntry 1000 (Entry.invalid "stuck") wState
      = ({ state := wState, scheduled := [], dbActions := [],
           statusWrites := [] }, 0) ∧
    countE (Entry.invalid "stuck")
        (recoverStaleJobs 1000 wState).1.processing
      = countE (Entry.invalid "stuck") wState.processing ∧
    countE (Entry.invalid "stuck")
        (sweepMany [1000, 2000] wState).processing
      = countE (Entry.invalid "stuck") wState.processing :=
  ⟨(sweep_skips_undecodable (Entry.invalid "stuck") rfl).1 1000 wState,
   ((sweep_skips_undecodable (Entry.invalid "stuck") rfl).2.1 1000 wState).1,
   (sweep_skips_undecodable (Entry.invalid "stuck") rfl).2.2 [1000, 2000]
     wState⟩
